import Mathlib

/-!
Shallow embedding of the RBAC claims-assembly and credit-ledger engine of
the ziptrigo-apps repository.

Credit ledger: `src/src/qr_code/models/user.py` (`User.add_credits`,
`User.spend_credits`, `InsufficientCreditsError`) and the admin paths
`src/qr_code/qr_code/admin.py` (`CustomAdminSite.tools_view`, credit branch)
and `src/users/users/routers/credits.py` (`create_credit_transaction`).

Claims assembler: `src/users/users/tokens.py` (`CustomAccessToken.for_user`).

Persistence is modelled as explicit state: a user's stored `credits` column
(`Option Int`, `none` when the row has been deleted), that user's list of
`CreditTransaction` rows in insertion order, and the in-memory
`self.credits` cache of the Django model instance.  A Django
`transaction.atomic` block is modelled by an operation returning either the
fully updated state or an error with the state unchanged (rollback).
-/

/-! ### Code-point order on strings

Python's `sorted` on strings compares code points lexicographically.
Mathlib's `String` order does not reduce in the kernel, so the comparison is
re-defined here on the underlying character lists via `Char.toNat`.
-/

def strLeAux : List Char → List Char → Bool
  | [], _ => true
  | _ :: _, [] => false
  | a :: as, b :: bs =>
      if a.toNat < b.toNat then true
      else if b.toNat < a.toNat then false
      else strLeAux as bs

def pyLe (s t : String) : Prop := strLeAux s.data t.data = true

instance : DecidableRel pyLe := fun s t =>
  inferInstanceAs (Decidable (strLeAux s.data t.data = true))

theorem strLeAux_total (as bs : List Char) :
    strLeAux as bs = true ∨ strLeAux bs as = true := by
  induction as generalizing bs with
  | nil => left; rfl
  | cons a as ih =>
    cases bs with
    | nil => right; rfl
    | cons b bs =>
      rcases Nat.lt_trichotomy a.toNat b.toNat with h | h | h
      · left; simp [strLeAux, h]
      · rcases ih bs with h2 | h2
        · left; simp [strLeAux, h, h2]
        · right; simp [strLeAux, h.symm, h2]
      · right; simp [strLeAux, h]

theorem strLeAux_trans (as bs cs : List Char) (h1 : strLeAux as bs = true)
    (h2 : strLeAux bs cs = true) : strLeAux as cs = true := by
  induction as generalizing bs cs with
  | nil => rfl
  | cons a as ih =>
    cases bs with
    | nil => simp [strLeAux] at h1
    | cons b bs =>
      cases cs with
      | nil => simp [strLeAux] at h2
      | cons c cs =>
        simp only [strLeAux] at h1 h2 ⊢
        by_cases hab : a.toNat < b.toNat <;> by_cases hbc : b.toNat < c.toNat
        · simp [show a.toNat < c.toNat by omega]
        · simp only [if_neg hbc] at h2
          by_cases hcb : c.toNat < b.toNat
          · simp [hcb] at h2
          · simp [show a.toNat < c.toNat by omega]
        · simp only [if_neg hab] at h1
          by_cases hba : b.toNat < a.toNat
          · simp [hba] at h1
          · simp [show a.toNat < c.toNat by omega]
        · simp only [if_neg hab] at h1
          simp only [if_neg hbc] at h2
          by_cases hba : b.toNat < a.toNat
          · simp [hba] at h1
          · by_cases hcb : c.toNat < b.toNat
            · simp [hcb] at h2
            · simp only [if_neg hba] at h1
              simp only [if_neg hcb] at h2
              have hac : ¬ a.toNat < c.toNat := by omega
              have hca : ¬ c.toNat < a.toNat := by omega
              simp only [if_neg hac, if_neg hca]
              exact ih bs cs h1 h2

instance : IsTotal String pyLe := ⟨fun s t => strLeAux_total s.data t.data⟩

instance : IsTrans String pyLe :=
  ⟨fun s t u => strLeAux_trans s.data t.data u.data⟩

/-- Model of Python's `sorted(list(<set>))` applied to the collected list of
codes: duplicates removed, then sorted by code-point order. -/
def sortDedup (xs : List String) : List String :=
  (xs.dedup).insertionSort pyLe

theorem mem_sortDedup (p : String) (xs : List String) :
    p ∈ sortDedup xs ↔ p ∈ xs := by
  unfold sortDedup
  rw [List.mem_insertionSort, List.mem_dedup]

theorem nodup_sortDedup (xs : List String) : (sortDedup xs).Nodup :=
  (List.perm_insertionSort pyLe xs.dedup).nodup_iff.mpr xs.nodup_dedup

theorem sorted_sortDedup (xs : List String) :
    (sortDedup xs).Sorted pyLe :=
  List.sorted_insertionSort pyLe xs.dedup


/-! ### Credit ledger (`src/src/qr_code/models/user.py`)

State of one user: the stored `credits` column (`none` once the row is
deleted), that user's `CreditTransaction` rows in insertion order, and the
in-memory `self.credits` value of the model instance.
-/

structure LedgerRow where
  amount : Int
  txType : String
  description : String
deriving DecidableEq

structure CreditState where
  row : Option Int
  ledger : List LedgerRow
  selfCredits : Int
deriving DecidableEq

inductive CreditError where
  | valueError
  | insufficientCredits
  | integrityError
deriving DecidableEq

/-- Transcription of `User.add_credits`: reject `amount <= 0` before any
storage access; otherwise, inside one atomic block, unconditionally add
`amount` to the stored balance (`filter(pk=self.pk).update(credits=F('credits') + amount)`)
and insert one ledger row with the same positive amount; finally
`refresh_from_db` updates the in-memory balance.  If the user row is gone the
update matches nothing and the ledger insert violates the user foreign key,
so the atomic block rolls back with no state change. -/
def add_credits (s : CreditState) (amount : Int) (txType : String)
    (description : String) : Except CreditError CreditState :=
  if amount ≤ 0 then .error .valueError
  else
    match s.row with
    | some c =>
        .ok { row := some (c + amount)
              ledger := s.ledger ++ [⟨amount, txType, description⟩]
              selfCredits := c + amount }
    | none => .error .integrityError

/-- Transcription of `User.spend_credits`: reject `amount <= 0` before any
storage access; otherwise run the atomic conditional update
`filter(pk=self.pk, credits__gte=amount).update(credits=F('credits') - amount)`.
When it matches no row (balance below `amount`, or row deleted) raise
`InsufficientCreditsError` before any ledger insert; otherwise insert one
ledger row with amount `-amount` and refresh the in-memory balance. -/
def spend_credits (s : CreditState) (amount : Int) (txType : String)
    (description : String) : Except CreditError CreditState :=
  if amount ≤ 0 then .error .valueError
  else
    match s.row with
    | some c =>
        if amount ≤ c then
          .ok { row := some (c - amount)
                ledger := s.ledger ++ [⟨-amount, txType, description⟩]
                selfCredits := c - amount }
        else .error .insufficientCredits
    | none => .error .insufficientCredits

inductive Op where
  | add (amount : Int) (txType : String) (description : String)
  | spend (amount : Int) (txType : String) (description : String)

def applyOp (s : CreditState) : Op → Except CreditError CreditState
  | .add a t d => add_credits s a t d
  | .spend a t d => spend_credits s a t d

/-- One operation as observed by later readers: on success the new state, on
any raised error the unchanged state (the raise happens before the ledger
insert on the spend path, and `transaction.atomic` rolls back otherwise). -/
def step (s : CreditState) (op : Op) : CreditState :=
  match applyOp s op with
  | .ok s' => s'
  | .error _ => s

def runOps (s : CreditState) (ops : List Op) : CreditState :=
  ops.foldl step s

/-- Stored balance is non-negative (vacuous when the row is deleted). -/
def NonNeg (s : CreditState) : Prop :=
  match s.row with
  | some c => 0 ≤ c
  | none => True

/-- Stored balance equals the sum of the amounts of that user's ledger rows. -/
def Consistent (s : CreditState) : Prop :=
  match s.row with
  | some c => c = (s.ledger.map LedgerRow.amount).sum
  | none => True

instance (s : CreditState) : Decidable (NonNeg s) :=
  match h : s.row with
  | some c => decidable_of_iff (0 ≤ c) (by unfold NonNeg; rw [h])
  | none => isTrue (by unfold NonNeg; rw [h]; trivial)

instance (s : CreditState) : Decidable (Consistent s) :=
  match h : s.row with
  | some c =>
      decidable_of_iff (c = (s.ledger.map LedgerRow.amount).sum)
        (by unfold Consistent; rw [h])
  | none => isTrue (by unfold Consistent; rw [h]; trivial)

theorem nonNeg_step (s : CreditState) (op : Op) (h : NonNeg s) :
    NonNeg (step s op) := by
  cases op with
  | add a t d =>
    simp only [step, applyOp, add_credits]
    by_cases ha : a ≤ 0
    · simpa [ha] using h
    · cases hr : s.row with
      | none => simpa [ha, hr] using h
      | some c =>
        simp only [NonNeg, hr] at h
        simp only [ha, if_false, hr, NonNeg]
        omega
  | spend a t d =>
    simp only [step, applyOp, spend_credits]
    by_cases ha : a ≤ 0
    · simpa [ha] using h
    · cases hr : s.row with
      | none => simpa [ha, hr] using h
      | some c =>
        by_cases hc : a ≤ c
        · simp only [ha, if_false, hr, hc, if_true, NonNeg]
          omega
        · simpa [ha, hr, hc, NonNeg] using h

theorem nonNeg_runOps (s : CreditState) (ops : List Op) (h : NonNeg s) :
    NonNeg (runOps s ops) := by
  induction ops generalizing s with
  | nil => exact h
  | cons op ops ih => exact ih (step s op) (nonNeg_step s op h)

theorem consistent_step (s : CreditState) (op : Op) (h : Consistent s) :
    Consistent (step s op) := by
  cases op with
  | add a t d =>
    simp only [step, applyOp, add_credits]
    by_cases ha : a ≤ 0
    · simpa [ha] using h
    · cases hr : s.row with
      | none => simpa [ha, hr] using h
      | some c =>
        simp only [Consistent, hr] at h
        simp only [ha, if_false, hr, Consistent, List.map_append, List.sum_append,
          List.map_cons, List.map_nil, List.sum_cons, List.sum_nil]
        omega
  | spend a t d =>
    simp only [step, applyOp, spend_credits]
    by_cases ha : a ≤ 0
    · simpa [ha] using h
    · cases hr : s.row with
      | none => simpa [ha, hr] using h
      | some c =>
        by_cases hc : a ≤ c
        · simp only [Consistent, hr] at h
          simp only [ha, if_false, hr, hc, if_true, Consistent, List.map_append,
            List.sum_append, List.map_cons, List.map_nil, List.sum_cons, List.sum_nil]
          omega
        · simpa [ha, hr, hc, Consistent] using h

theorem consistent_runOps (s : CreditState) (ops : List Op) (h : Consistent s) :
    Consistent (runOps s ops) := by
  induction ops generalizing s with
  | nil => exact h
  | cons op ops ih => exact ih (step s op) (consistent_step s op h)

/-! ### Admin credit paths

`CustomAdminSite.tools_view` (qr_code service) routes a validated credit
adjustment through `add_credits`/`spend_credits` with `tx_type='adjustment'`.
`create_credit_transaction` (users service) writes the ledger row and the
balance directly from the request payload.
-/

/-- Python's `str.strip()` on ASCII whitespace, as used by the tools view on
the optional description field. -/
def pyStrip (s : String) : String :=
  ⟨((s.data.dropWhile Char.isWhitespace).reverse.dropWhile Char.isWhitespace).reverse⟩

/-- Transcription of the `adjust_credits` branch of
`CustomAdminSite.tools_view`: strip the description, default it to
`'Admin adjustment'` when empty, then call `add_credits` for direction
`'add'` and `spend_credits` otherwise, both with `tx_type='adjustment'`.
The form has already validated `direction ∈ ('add', 'spend')` and
`amount ≥ 1`. -/
def tools_view_adjust_credits (s : CreditState) (direction : String)
    (amount : Int) (description : String) : Except CreditError CreditState :=
  let desc0 := pyStrip description
  let desc := if desc0 = "" then "Admin adjustment" else desc0
  if direction = "add" then add_credits s amount "adjustment" desc
  else spend_credits s amount "adjustment" desc

inductive HttpErr where
  | notFound
  | badRequest
deriving DecidableEq

/-- Valid values of `CreditTransactionType.choices`
(`src/users/users/models/credit_transaction.py`). -/
def creditTransactionTypeChoices : List String :=
  ["purchase", "spend", "adjustment", "refund"]

/-- State of one users-service user for the admin credits endpoint: the
stored `credits` value (`none` when no row matches the id) and that user's
ledger rows.  The `credits` field declaration itself is not in the sources;
it is modelled as a plain signed integer, matching the router's unguarded
`user.credits += payload.amount` and the signed `credits: int` of
`UserCreditsResponse`. -/
structure AdminUserState where
  row : Option Int
  ledger : List LedgerRow
deriving DecidableEq

/-- Transcription of `create_credit_transaction`
(`src/users/users/routers/credits.py`): 404 when the user id resolves to no
row; 400 when the payload's type is not one of
`creditTransactionTypeChoices`; otherwise, in one atomic block, insert a
ledger row with the caller-supplied signed amount and type, and add that
amount to the balance read from the instance — with no conditional
balance check. -/
def create_credit_transaction (s : AdminUserState) (transaction_type : String)
    (amount : Int) (description : String) : Except HttpErr AdminUserState :=
  match s.row with
  | none => .error .notFound
  | some c =>
      if creditTransactionTypeChoices.contains transaction_type then
        .ok { row := some (c + amount)
              ledger := s.ledger ++ [⟨amount, transaction_type, description⟩] }
      else .error .badRequest

/-! ### Claims assembler (`src/users/users/tokens.py`)

The assignment tables are modelled as lists of rows in creation order
(`UserGlobalPermission` as (user id, permission id) pairs, and so on), with
`permCode`/`roleName` giving the `code`/`name` reached through the
`select_related` foreign keys.  Service ids key the `services` map; the
map is an association list in insertion order, as a Python dict.
-/

structure Db where
  permCode : Nat → String
  roleName : Nat → String
  userGlobalPermissions : List (Nat × Nat)
  userGlobalRoles : List (Nat × Nat)
  rolePermissions : List (Nat × Nat)
  userServiceAssignments : List (Nat × Nat)
  userServicePermissions : List (Nat × Nat × Nat)
  userServiceRoles : List (Nat × Nat × Nat)

structure ServiceEntry where
  permissions : List String
  roles : List String
deriving DecidableEq

structure Claims where
  email : String
  global_permissions : List String
  global_roles : List String
  services : List (Nat × ServiceEntry)
deriving DecidableEq

/-- Body of the per-assignment loop of `CustomAccessToken.for_user`: seed the
per-service permission set from direct `UserServicePermission` rows for
(user, service), then for each `UserServiceRole` row append the role name and
union the role's permissions via `RolePermission`; store the sorted unique
permission list and the ordered role list. -/
def serviceEntryFor (db : Db) (u sid : Nat) : ServiceEntry :=
  let directServicePerms :=
    (db.userServicePermissions.filter (fun r => r.1 == u && r.2.1 == sid)).map
      (fun r => db.permCode r.2.2)
  let userServiceRoleRows :=
    db.userServiceRoles.filter (fun r => r.1 == u && r.2.1 == sid)
  let serviceRolePerms :=
    userServiceRoleRows.flatMap (fun r =>
      (db.rolePermissions.filter (fun rp => rp.1 == r.2.2)).map
        (fun rp => db.permCode rp.2))
  { permissions := sortDedup (directServicePerms ++ serviceRolePerms)
    roles := userServiceRoleRows.map (fun r => db.roleName r.2.2) }

/-- Transcription of `CustomAccessToken.for_user`: the union of direct global
permission codes and the codes of permissions of each assigned global role,
sorted and deduplicated; the global role names in assignment order; and one
service entry per `UserServiceAssignment` row, keyed by the service id. -/
def for_user (db : Db) (u : Nat) (email : String) : Claims :=
  let directGlobalPerms :=
    (db.userGlobalPermissions.filter (fun r => r.1 == u)).map
      (fun r => db.permCode r.2)
  let userGlobalRoleRows := db.userGlobalRoles.filter (fun r => r.1 == u)
  let globalRolePerms :=
    userGlobalRoleRows.flatMap (fun r =>
      (db.rolePermissions.filter (fun rp => rp.1 == r.2)).map
        (fun rp => db.permCode rp.2))
  let assignments := db.userServiceAssignments.filter (fun a => a.1 == u)
  { email := email
    global_permissions := sortDedup (directGlobalPerms ++ globalRolePerms)
    global_roles := userGlobalRoleRows.map (fun r => db.roleName r.2)
    services := assignments.map (fun a => (a.2, serviceEntryFor db u a.2)) }

/-! ### Evaluation lemmas for the ledger operations -/

theorem add_credits_some (c : Int) (L : List LedgerRow) (m amount : Int)
    (t d : String) (h : ¬ amount ≤ 0) :
    add_credits ⟨some c, L, m⟩ amount t d =
      Except.ok ⟨some (c + amount), L ++ [⟨amount, t, d⟩], c + amount⟩ := by
  simp [add_credits, h]

theorem spend_credits_some_ok (c : Int) (L : List LedgerRow) (m amount : Int)
    (t d : String) (h : ¬ amount ≤ 0) (hle : amount ≤ c) :
    spend_credits ⟨some c, L, m⟩ amount t d =
      Except.ok ⟨some (c - amount), L ++ [⟨-amount, t, d⟩], c - amount⟩ := by
  simp [spend_credits, h, hle]

theorem spend_credits_some_insufficient (c : Int) (L : List LedgerRow)
    (m amount : Int) (t d : String) (h : ¬ amount ≤ 0) (hle : ¬ amount ≤ c) :
    spend_credits ⟨some c, L, m⟩ amount t d =
      Except.error CreditError.insufficientCredits := by
  simp [spend_credits, h, hle]

theorem spend_credits_none (L : List LedgerRow) (m amount : Int)
    (t d : String) (h : ¬ amount ≤ 0) :
    spend_credits ⟨none, L, m⟩ amount t d =
      Except.error CreditError.insufficientCredits := by
  simp [spend_credits, h]

/-! ### Claim theorems: credit ledger -/

/-- C1: for every sequence of add_credits/spend_credits operations starting
from a non-negative balance, the balance never goes below zero; and a
spend_credits call with 0 < amount and current balance < amount raises
InsufficientCredits and leaves the state unchanged (no ledger row inserted,
no balance change). -/
theorem c1_balance_never_negative :
    (∀ (s0 : CreditState) (ops : List Op), NonNeg s0 → NonNeg (runOps s0 ops)) ∧
    (∀ (s : CreditState) (c amount : Int) (t d : String),
      s.row = some c → 0 < amount → c < amount →
      spend_credits s amount t d = Except.error CreditError.insufficientCredits ∧
      step s (Op.spend amount t d) = s) := by
  refine ⟨nonNeg_runOps, ?_⟩
  intro s c amount t d hrow hpos hlt
  obtain ⟨row, L, m⟩ := s
  simp only at hrow
  subst hrow
  have hres := spend_credits_some_insufficient c L m amount t d (by omega) (by omega)
  exact ⟨hres, by simp [step, applyOp, hres]⟩

/-- Witness for C1 at concrete inputs. -/
theorem c1_balance_never_negative_witness :
    NonNeg (runOps ⟨some 5, [], 5⟩
      [Op.add 3 "purchase" "", Op.spend 100 "spend" "", Op.spend 8 "spend" ""]) ∧
    spend_credits ⟨some 2, [], 2⟩ 5 "spend" "" =
      Except.error CreditError.insufficientCredits :=
  ⟨c1_balance_never_negative.1 ⟨some 5, [], 5⟩ _ (by decide),
   (c1_balance_never_negative.2 ⟨some 2, [], 2⟩ 2 5 "spend" "" rfl (by decide)
     (by decide)).1⟩

/-- C2: balance-ledger consistency — if the stored balance equals the sum of
that user's ledger amounts, it still does after every add_credits /
spend_credits operation, whether the operation succeeds or errors, and hence
after any sequence of operations. -/
theorem c2_balance_ledger_consistency :
    (∀ (s : CreditState) (op : Op), Consistent s → Consistent (step s op)) ∧
    (∀ (s0 : CreditState) (ops : List Op), Consistent s0 → Consistent (runOps s0 ops)) :=
  ⟨consistent_step, consistent_runOps⟩

/-- Witness for C2 at concrete inputs. -/
theorem c2_balance_ledger_consistency_witness :
    Consistent (runOps ⟨some 0, [], 0⟩
      [Op.add 100 "purchase" "", Op.spend 25 "spend" "", Op.spend 1000 "spend" "",
       Op.add 0 "purchase" ""]) :=
  c2_balance_ledger_consistency.2 ⟨some 0, [], 0⟩ _ (by decide)

/-- C3: with a positive amount and an existing row holding balance c, a
successful add_credits returns exactly the state with balance c + amount and
one appended ledger row of +amount; a successful spend_credits (amount ≤ c)
returns exactly the state with balance c - amount and one appended ledger
row of -amount; in both cases the refreshed in-memory balance equals the
stored balance. -/
theorem c3_exact_mutation_and_refresh :
    ∀ (s : CreditState) (c amount : Int) (t d : String),
      s.row = some c → 0 < amount →
      (add_credits s amount t d =
        Except.ok ⟨some (c + amount), s.ledger ++ [⟨amount, t, d⟩], c + amount⟩) ∧
      (amount ≤ c →
        spend_credits s amount t d =
          Except.ok ⟨some (c - amount), s.ledger ++ [⟨-amount, t, d⟩], c - amount⟩) ∧
      (∀ s', add_credits s amount t d = Except.ok s' → s'.row = some s'.selfCredits) ∧
      (∀ s', spend_credits s amount t d = Except.ok s' → s'.row = some s'.selfCredits) := by
  intro s c amount t d hrow hpos
  obtain ⟨row, L, m⟩ := s
  simp only at hrow
  subst hrow
  have hadd := add_credits_some c L m amount t d (by omega)
  refine ⟨hadd, ?_, ?_, ?_⟩
  · intro hle
    exact spend_credits_some_ok c L m amount t d (by omega) hle
  · intro s' h
    rw [hadd] at h
    cases h
    rfl
  · intro s' h
    by_cases hle : amount ≤ c
    · rw [spend_credits_some_ok c L m amount t d (by omega) hle] at h
      cases h
      rfl
    · rw [spend_credits_some_insufficient c L m amount t d (by omega) hle] at h
      cases h

/-- Witness for C3 at concrete inputs. -/
theorem c3_exact_mutation_and_refresh_witness :
    add_credits ⟨some 10, [], 10⟩ 4 "purchase" "" =
      Except.ok ⟨some 14, [⟨4, "purchase", ""⟩], 14⟩ ∧
    spend_credits ⟨some 10, [], 10⟩ 4 "spend" "" =
      Except.ok ⟨some 6, [⟨-4, "spend", ""⟩], 6⟩ :=
  ⟨(c3_exact_mutation_and_refresh ⟨some 10, [], 10⟩ 10 4 "purchase" "" rfl
      (by decide)).1,
   (c3_exact_mutation_and_refresh ⟨some 10, [], 10⟩ 10 4 "spend" "" rfl
      (by decide)).2.1 (by decide)⟩

/-- C7: a non-positive amount makes both add_credits and spend_credits raise
the validation error before any storage access, with no ledger row and no
balance change. -/
theorem c7_nonpositive_amount_rejected :
    ∀ (s : CreditState) (amount : Int) (t d : String), amount ≤ 0 →
      add_credits s amount t d = Except.error CreditError.valueError ∧
      spend_credits s amount t d = Except.error CreditError.valueError ∧
      step s (Op.add amount t d) = s ∧
      step s (Op.spend amount t d) = s := by
  intro s amount t d h
  have ha : add_credits s amount t d = Except.error CreditError.valueError := by
    unfold add_credits
    rw [if_pos h]
  have hs : spend_credits s amount t d = Except.error CreditError.valueError := by
    unfold spend_credits
    rw [if_pos h]
  exact ⟨ha, hs, by simp [step, applyOp, ha], by simp [step, applyOp, hs]⟩

/-- Witness for C7 at the spec's example inputs 0 and -5. -/
theorem c7_nonpositive_amount_rejected_witness :
    add_credits ⟨some 7, [], 7⟩ 0 "purchase" "" =
      Except.error CreditError.valueError ∧
    spend_credits ⟨some 7, [], 7⟩ (-5) "spend" "" =
      Except.error CreditError.valueError :=
  ⟨(c7_nonpositive_amount_rejected ⟨some 7, [], 7⟩ 0 "purchase" "" (by decide)).1,
   (c7_nonpositive_amount_rejected ⟨some 7, [], 7⟩ (-5) "spend" "" (by decide)).2.1⟩

/-- C9: spend_credits on an instance whose row no longer exists (the
conditional update matches zero rows) raises the same InsufficientCredits
error as an insufficient balance — not a not-found error — and inserts no
ledger row. -/
theorem c9_spend_on_deleted_row :
    ∀ (L : List LedgerRow) (m amount : Int) (t d : String), 0 < amount →
      spend_credits ⟨none, L, m⟩ amount t d =
        Except.error CreditError.insufficientCredits ∧
      step ⟨none, L, m⟩ (Op.spend amount t d) = ⟨none, L, m⟩ := by
  intro L m amount t d hpos
  have hres := spend_credits_none L m amount t d (by omega)
  exact ⟨hres, by simp [step, applyOp, hres]⟩

/-- Witness for C9 at concrete inputs. -/
theorem c9_spend_on_deleted_row_witness :
    spend_credits ⟨none, [⟨3, "purchase", ""⟩], 3⟩ 2 "spend" "" =
      Except.error CreditError.insufficientCredits :=
  (c9_spend_on_deleted_row [⟨3, "purchase", ""⟩] 3 2 "spend" "" (by decide)).1

/-- C10: from balance 100, two spend_credits(70) calls — the conditional
update serializes concurrent spends at the storage layer, and both
serialization orders of the two identical calls are the operation list
below — produce exactly one success and one InsufficientCredits, final
balance 30, and exactly one ledger row of amount -70; moreover every
approved spend is within the balance read at its approval. -/
theorem c10_concurrent_spend_race :
    (spend_credits ⟨some 100, [], 100⟩ 70 "spend" "" =
      Except.ok ⟨some 30, [⟨-70, "spend", ""⟩], 30⟩) ∧
    (spend_credits ⟨some 30, [⟨-70, "spend", ""⟩], 30⟩ 70 "spend" "" =
      Except.error CreditError.insufficientCredits) ∧
    (runOps ⟨some 100, [], 100⟩ [Op.spend 70 "spend" "", Op.spend 70 "spend" ""] =
      ⟨some 30, [⟨-70, "spend", ""⟩], 30⟩) ∧
    (∀ (s s' : CreditState) (c amount : Int) (t d : String),
      s.row = some c → spend_credits s amount t d = Except.ok s' → amount ≤ c) := by
  refine ⟨rfl, rfl, by decide, ?_⟩
  intro s s' c amount t d hrow h
  obtain ⟨row, L, m⟩ := s
  simp only at hrow
  subst hrow
  by_cases ha : amount ≤ 0
  · unfold spend_credits at h
    rw [if_pos ha] at h
    cases h
  · by_cases hc : amount ≤ c
    · exact hc
    · rw [spend_credits_some_insufficient c L m amount t d ha hc] at h
      cases h

/-- Witness for C10: the approved first spend of 70 was within the balance
100 read at approval. -/
theorem c10_concurrent_spend_race_witness :
    spend_credits ⟨some 100, [], 100⟩ 70 "spend" "" =
      Except.ok ⟨some 30, [⟨-70, "spend", ""⟩], 30⟩ ∧ (70 : Int) ≤ 100 :=
  ⟨c10_concurrent_spend_race.1,
   c10_concurrent_spend_race.2.2.2 ⟨some 100, [], 100⟩ _ 100 70 "spend" "" rfl
     c10_concurrent_spend_race.1⟩

/-! ### Claim theorems: admin credit paths -/

/-- Counterexample to C4: the users-service admin endpoint
create_credit_transaction does not call the Add/Spend primitives.  A spend
phrased as its pre-signed amount -30 at balance 0 succeeds, writes one
ledger row whose type is the caller's 'spend' (not 'adjustment'), and drives
the stored balance to -30 — while the Spend primitive at the corresponding
input raises InsufficientCredits with no row: the admin spend bypassed the
conditional balance >= amount check. -/
theorem c4_counterexample :
    create_credit_transaction ⟨some 0, []⟩ "spend" (-30) "" =
      Except.ok ⟨some (-30), [⟨-30, "spend", ""⟩]⟩ ∧
    create_credit_transaction ⟨some 100, []⟩ "spend" (-30) "" =
      Except.ok ⟨some 70, [⟨-30, "spend", ""⟩]⟩ ∧
    spend_credits ⟨some 0, [], 0⟩ 30 "spend" "" =
      Except.error CreditError.insufficientCredits :=
  ⟨rfl, rfl, rfl⟩

/-- C4 as amended: the qr_code admin tools view funnels every credit
adjustment through add_credits/spend_credits with tx_type 'adjustment', so a
spend adjustment there is still guarded by the conditional balance check;
the users-service admin endpoint create_credit_transaction instead writes
the ledger row and the balance directly with the caller-supplied signed
amount and type, with no conditional balance check. -/
theorem c4_amended_admin_paths :
    (∀ (s : CreditState) (direction : String) (amount : Int) (d : String),
      tools_view_adjust_credits s direction amount d =
        add_credits s amount "adjustment"
          (if pyStrip d = "" then "Admin adjustment" else pyStrip d) ∨
      tools_view_adjust_credits s direction amount d =
        spend_credits s amount "adjustment"
          (if pyStrip d = "" then "Admin adjustment" else pyStrip d)) ∧
    (∀ (s : CreditState) (direction : String) (c amount : Int) (d : String),
      direction ≠ "add" → s.row = some c → 0 < amount → c < amount →
      tools_view_adjust_credits s direction amount d =
        Except.error CreditError.insufficientCredits ∧
      step s (Op.spend amount "adjustment"
        (if pyStrip d = "" then "Admin adjustment" else pyStrip d)) = s) ∧
    (∀ (s : AdminUserState) (c amount : Int) (ty d : String),
      s.row = some c → creditTransactionTypeChoices.contains ty = true →
      create_credit_transaction s ty amount d =
        Except.ok ⟨some (c + amount), s.ledger ++ [⟨amount, ty, d⟩]⟩) := by
  refine ⟨?_, ?_, ?_⟩
  · intro s direction amount d
    by_cases hdir : direction = "add"
    · left
      simp [tools_view_adjust_credits, hdir]
    · right
      simp [tools_view_adjust_credits, hdir]
  · intro s direction c amount d hdir hrow hpos hlt
    obtain ⟨row, L, m⟩ := s
    simp only at hrow
    subst hrow
    have hres := spend_credits_some_insufficient c L m amount "adjustment"
      (if pyStrip d = "" then "Admin adjustment" else pyStrip d) (by omega) (by omega)
    refine ⟨?_, by simp [step, applyOp, hres]⟩
    simp only [tools_view_adjust_credits, if_neg hdir]
    exact hres
  · intro s c amount ty d hrow hty
    obtain ⟨row, L⟩ := s
    simp only at hrow
    subst hrow
    have hmem : ty ∈ creditTransactionTypeChoices := by simpa using hty
    simp [create_credit_transaction, hmem]

/-- Witness for the amended C4 at concrete inputs: a spend-direction
adjustment of 10 at balance 5 raises InsufficientCredits, and the users
endpoint applies a signed amount directly. -/
theorem c4_amended_admin_paths_witness :
    tools_view_adjust_credits ⟨some 5, [], 5⟩ "spend" 10 "" =
      Except.error CreditError.insufficientCredits ∧
    create_credit_transaction ⟨some 5, []⟩ "refund" 25 "r" =
      Except.ok ⟨some 30, [⟨25, "refund", "r"⟩]⟩ :=
  ⟨(c4_amended_admin_paths.2.1 ⟨some 5, [], 5⟩ "spend" 5 10 "" (by decide) rfl
      (by decide) (by decide)).1,
   c4_amended_admin_paths.2.2 ⟨some 5, []⟩ 5 25 "refund" "r" rfl (by decide)⟩

/-! ### Claim theorems: claims assembler -/

/-- Example database for the spec's permission-union case: global role R1
(id 1) carries permissions a (id 10) and b (id 11); user 7 holds R1 and the
direct global permission c (id 12). -/
def c5Db : Db where
  permCode := fun pid => if pid = 10 then "a" else if pid = 11 then "b"
    else if pid = 12 then "c" else ""
  roleName := fun rid => if rid = 1 then "R1" else ""
  userGlobalPermissions := [(7, 12)]
  userGlobalRoles := [(7, 1)]
  rolePermissions := [(1, 10), (1, 11)]
  userServiceAssignments := []
  userServicePermissions := []
  userServiceRoles := []

/-- C5: global_permissions is the sorted, duplicate-free union of the codes
of the user's direct global permissions and of the permissions attached via
RolePermission to the user's global roles; in particular the spec's example
yields ["a", "b", "c"]. -/
theorem c5_global_permission_union :
    (∀ (db : Db) (u : Nat) (e : String) (p : String),
      p ∈ (for_user db u e).global_permissions ↔
        ((∃ pid, (u, pid) ∈ db.userGlobalPermissions ∧ db.permCode pid = p) ∨
         (∃ rid pid, (u, rid) ∈ db.userGlobalRoles ∧
           (rid, pid) ∈ db.rolePermissions ∧ db.permCode pid = p))) ∧
    (∀ (db : Db) (u : Nat) (e : String),
      ((for_user db u e).global_permissions).Sorted pyLe ∧
      ((for_user db u e).global_permissions).Nodup) ∧
    (for_user c5Db 7 "u").global_permissions = ["a", "b", "c"] := by
  refine ⟨?_, fun db u e => ⟨sorted_sortDedup _, nodup_sortDedup _⟩, by decide⟩
  intro db u e p
  simp only [for_user]
  rw [mem_sortDedup]
  simp only [List.mem_append, List.mem_map, List.mem_filter, List.mem_flatMap,
    beq_iff_eq]
  constructor
  · rintro (⟨r, ⟨hr, hru⟩, hcode⟩ | ⟨r, ⟨hr, hru⟩, q, ⟨⟨hq, hqr⟩, hcode⟩⟩)
    · left
      refine ⟨r.2, ?_, hcode⟩
      have : (u, r.2) = r := by rw [← hru]
      rwa [this]
    · right
      refine ⟨r.2, q.2, ?_, ?_, hcode⟩
      · have : (u, r.2) = r := by rw [← hru]
        rwa [this]
      · have : (r.2, q.2) = q := by rw [← hqr]
        rwa [this]
  · rintro (⟨pid, hmem, hcode⟩ | ⟨rid, pid, hrole, hrp, hcode⟩)
    · exact Or.inl ⟨(u, pid), ⟨hmem, rfl⟩, hcode⟩
    · exact Or.inr ⟨(u, rid), ⟨hrole, rfl⟩, (rid, pid), ⟨⟨hrp, rfl⟩, hcode⟩⟩

theorem services_mem_eq (db : Db) (u : Nat) (e : String) (sid : Nat)
    (entry : ServiceEntry) (h : (sid, entry) ∈ (for_user db u e).services) :
    entry = serviceEntryFor db u sid := by
  simp only [for_user, List.mem_map, List.mem_filter, beq_iff_eq] at h
  obtain ⟨a, ⟨ha, hau⟩, heq⟩ := h
  rw [Prod.ext_iff] at heq
  obtain ⟨h1, h2⟩ := heq
  simp only at h1 h2
  rw [← h2, h1]

theorem mem_serviceEntryFor_permissions (db : Db) (u sid : Nat) (p : String) :
    p ∈ (serviceEntryFor db u sid).permissions ↔
      ((∃ pid, (u, sid, pid) ∈ db.userServicePermissions ∧ db.permCode pid = p) ∨
       (∃ rid pid, (u, sid, rid) ∈ db.userServiceRoles ∧
         (rid, pid) ∈ db.rolePermissions ∧ db.permCode pid = p)) := by
  simp only [serviceEntryFor]
  rw [mem_sortDedup]
  simp only [List.mem_append, List.mem_map, List.mem_filter, List.mem_flatMap,
    Bool.and_eq_true, beq_iff_eq]
  constructor
  · rintro (⟨r, ⟨hr, hru, hrs⟩, hcode⟩ | ⟨r, ⟨hr, hru, hrs⟩, q, ⟨⟨hq, hqr⟩, hcode⟩⟩)
    · left
      refine ⟨r.2.2, ?_, hcode⟩
      have : (u, sid, r.2.2) = r := by rw [← hru, ← hrs]
      rwa [this]
    · right
      refine ⟨r.2.2, q.2, ?_, ?_, hcode⟩
      · have : (u, sid, r.2.2) = r := by rw [← hru, ← hrs]
        rwa [this]
      · have : (r.2.2, q.2) = q := by rw [← hqr]
        rwa [this]
  · rintro (⟨pid, hmem, hcode⟩ | ⟨rid, pid, hrole, hrp, hcode⟩)
    · exact Or.inl ⟨(u, sid, pid), ⟨hmem, rfl, rfl⟩, hcode⟩
    · exact Or.inr ⟨(u, sid, rid), ⟨hrole, rfl, rfl⟩, (rid, pid), ⟨⟨hrp, rfl⟩, hcode⟩⟩

theorem mem_serviceEntryFor_roles (db : Db) (u sid : Nat) (r : String) :
    r ∈ (serviceEntryFor db u sid).roles ↔
      ∃ rid, (u, sid, rid) ∈ db.userServiceRoles ∧ db.roleName rid = r := by
  simp only [serviceEntryFor]
  simp only [List.mem_map, List.mem_filter, Bool.and_eq_true, beq_iff_eq]
  constructor
  · rintro ⟨x, ⟨hx, hxu, hxs⟩, hname⟩
    refine ⟨x.2.2, ?_, hname⟩
    have : (u, sid, x.2.2) = x := by rw [← hxu, ← hxs]
    rwa [this]
  · rintro ⟨rid, hmem, hname⟩
    exact ⟨(u, sid, rid), ⟨hmem, rfl, rfl⟩, hname⟩

/-- Example database with user 7 assigned to services 1 and 2, each carrying
one direct permission and one role of its own. -/
def c6Db : Db where
  permCode := fun pid => if pid = 1 then "s1p" else if pid = 2 then "s2p" else ""
  roleName := fun rid => if rid = 1 then "r1" else if rid = 2 then "r2" else ""
  userGlobalPermissions := []
  userGlobalRoles := []
  rolePermissions := []
  userServiceAssignments := [(7, 1), (7, 2)]
  userServicePermissions := [(7, 1, 1), (7, 2, 2)]
  userServiceRoles := [(7, 1, 1), (7, 2, 2)]

/-- C6: the claims entry stored under a service id S is built exclusively
from rows scoped to (user, S): its permissions are exactly the direct
UserServicePermission codes for (user, S) plus the codes reachable through
the user's UserServiceRole rows for S, and its roles are exactly the role
names assigned for S — so nothing granted only for another service S1 can
appear under S. -/
theorem c6_per_service_isolation :
    ∀ (db : Db) (u : Nat) (e : String) (sid : Nat) (entry : ServiceEntry),
      (sid, entry) ∈ (for_user db u e).services →
      entry = serviceEntryFor db u sid ∧
      (∀ p, p ∈ entry.permissions ↔
        ((∃ pid, (u, sid, pid) ∈ db.userServicePermissions ∧ db.permCode pid = p) ∨
         (∃ rid pid, (u, sid, rid) ∈ db.userServiceRoles ∧
           (rid, pid) ∈ db.rolePermissions ∧ db.permCode pid = p))) ∧
      (∀ r, r ∈ entry.roles ↔
        ∃ rid, (u, sid, rid) ∈ db.userServiceRoles ∧ db.roleName rid = r) := by
  intro db u e sid entry hmem
  have hentry := services_mem_eq db u e sid entry hmem
  subst hentry
  exact ⟨rfl, mem_serviceEntryFor_permissions db u sid,
    mem_serviceEntryFor_roles db u sid⟩

/-- Witness for C6: in c6Db the entry under service 2 is exactly the
(user 7, service 2) data, and the permission granted only for service 1
does not appear in it. -/
theorem c6_per_service_isolation_witness :
    (⟨["s2p"], ["r2"]⟩ : ServiceEntry) = serviceEntryFor c6Db 7 2 ∧
    "s1p" ∉ (serviceEntryFor c6Db 7 2).permissions :=
  ⟨(c6_per_service_isolation c6Db 7 "e" 2 ⟨["s2p"], ["r2"]⟩ (by decide)).1,
   by decide⟩

/-- Example database with a duplicated global-role assignment row for user
7: the role list keeps both copies while the permission list is deduplicated. -/
def c8Db : Db where
  permCode := fun pid => if pid = 20 then "q" else ""
  roleName := fun _ => "R"
  userGlobalPermissions := []
  userGlobalRoles := [(7, 1), (7, 1)]
  rolePermissions := [(1, 20)]
  userServiceAssignments := []
  userServicePermissions := []
  userServiceRoles := []

/-- C8: global_roles and each per-service roles list are exactly the role
names of the corresponding assignment rows in stored (creation) order, with
no deduplication and no sorting — duplicate assignment rows stay duplicated
— while global_permissions and each per-service permissions list are always
sorted and duplicate-free. -/
theorem c8_roles_ordered_permissions_sorted :
    (∀ (db : Db) (u : Nat) (e : String),
      (for_user db u e).global_roles =
        (db.userGlobalRoles.filter (fun r => r.1 == u)).map
          (fun r => db.roleName r.2)) ∧
    (∀ (db : Db) (u : Nat) (e : String),
      ((for_user db u e).global_permissions).Sorted pyLe ∧
      ((for_user db u e).global_permissions).Nodup) ∧
    (∀ (db : Db) (u : Nat) (e : String) (sid : Nat) (entry : ServiceEntry),
      (sid, entry) ∈ (for_user db u e).services →
      entry.roles =
        (db.userServiceRoles.filter (fun r => r.1 == u && r.2.1 == sid)).map
          (fun r => db.roleName r.2.2) ∧
      entry.permissions.Sorted pyLe ∧ entry.permissions.Nodup) ∧
    ((for_user c8Db 7 "e").global_roles = ["R", "R"] ∧
     (for_user c8Db 7 "e").global_permissions = ["q"]) := by
  refine ⟨fun db u e => rfl, fun db u e => ⟨sorted_sortDedup _, nodup_sortDedup _⟩,
    ?_, by decide, by decide⟩
  intro db u e sid entry hmem
  have hentry := services_mem_eq db u e sid entry hmem
  subst hentry
  exact ⟨rfl, sorted_sortDedup _, nodup_sortDedup _⟩

/-- Witness for C8: the per-service clause applied to c6Db at service 2. -/
theorem c8_roles_ordered_permissions_sorted_witness :
    (serviceEntryFor c6Db 7 2).roles =
      (c6Db.userServiceRoles.filter (fun r => r.1 == 7 && r.2.1 == 2)).map
        (fun r => c6Db.roleName r.2.2) :=
  (c8_roles_ordered_permissions_sorted.2.2.1 c6Db 7 "e" 2 (serviceEntryFor c6Db 7 2)
    (by decide)).1
